import Mathlib

/-
Verification of the streaming conversation session manager of the
rag-expert-chatbot repository (src/frontend/src/hooks/useChat.ts).

The embedding models JavaScript strings as lists of characters (JStr).
React state that the hook reads through its closure is passed explicitly:
within one execution of sendMessage the captured values (conversationId,
isLoading) are constants, while setState calls update the session state
record.  Math.random based message ids are modelled by a deterministic
counter (ids are opaque and only compared for equality); Date timestamps
are modelled by the constant 0 (never inspected by the hook).

The server-sent-event stream is modelled at the text level: a run of the
read loop (lines 111-151 of useChat.ts) consumes a list of decoded text
chunks.  Each chunk is split on the newline character, each line that
starts with the literal "data: " is sliced and trimmed, and the payload
is JSON-parsed inside a try/catch whose catch ignores the line.
JSON.parse composed with the type dispatch of lines 126-145 is modelled
by parseEvent?, a character-level recognizer of the canonical
serialization of the protocol records; strings it rejects model payloads
on which JSON.parse throws (or records no dispatch branch handles), which
the source ignores by the catch at line 146.
-/

namespace RagChat

/-- JavaScript strings are modelled as lists of characters. -/
abbrev JStr := List Char

/-- Embed a Lean string literal as a JStr. -/
def str (s : String) : JStr := s.data

/-- Message.role field: the two roles of useChat.ts (line 7). -/
inductive Role where
  | user
  | assistant
deriving DecidableEq, Repr

/-- The Source interface of useChat.ts (lines 14-21).  The score, a JSON
number the hook never computes with, is modelled as a natural number. -/
structure Source where
  document_id : JStr
  filename : JStr
  page_number : Option Nat
  score : Nat
  excerpt : JStr
  url : Option JStr
deriving DecidableEq, Repr

/-- The Message interface of useChat.ts (lines 5-12).  The optional
sources field is an Option; the optional isStreaming field defaults to
false (undefined is falsy everywhere the source reads it). -/
structure Message where
  id : Nat
  role : Role
  content : JStr
  sources : Option (List Source)
  timestamp : Nat
  isStreaming : Bool
deriving DecidableEq, Repr

/-- The state owned by one useChat instance: the messages and isLoading
and conversationId React states (lines 31-35), plus the externally
observable effects: onConversationCreated notifications (line 141),
toast.error calls (line 176) and query-cache invalidations (line 163).
nextId is the deterministic id counter standing in for generateId. -/
structure ChatState where
  messages : List Message
  isLoading : Bool
  conversationId : Option JStr
  nextId : Nat
  notifications : List JStr
  toasts : List JStr
  cacheInvalidations : Nat
deriving DecidableEq, Repr

/-- A decoded protocol record, as discriminated by lines 126-145. -/
inductive Event where
  | token (content : JStr)
  | sources (sources : List Source)
  | conversation_id (id : JStr)
  | error (message : JStr)
deriving DecidableEq, Repr

/-- The values captured by the sendMessage closure for one execution:
the conversationId React state as of callback creation (constant during
the stream) and the id generated for the placeholder assistant message. -/
structure StreamCtx where
  closureConvId : Option JStr
  assistantId : Nat
deriving DecidableEq, Repr

/-- The local variables of one sendMessage execution (lines 107-109). -/
structure StreamLocals where
  fullContent : JStr
  sources : List Source
  newConvId : Option JStr
deriving DecidableEq, Repr

/-- Initial values of the stream locals (lines 107-109). -/
def initLocals : StreamLocals := { fullContent := [], sources := [], newConvId := none }

/-- The whitespace characters stripped by String.prototype.trim that can
occur in this protocol. -/
def jsWhitespace (c : Char) : Bool := c = ' ' || c = '\n' || c = '\t' || c = '\r'

/-- Model of JavaScript String.prototype.trim. -/
def trimChars (l : JStr) : JStr :=
  ((l.dropWhile jsWhitespace).reverse.dropWhile jsWhitespace).reverse

/-- Model of JavaScript String.prototype.split with separator newline:
"a\nb" gives ["a","b"], "" gives [""], "a\n" gives ["a",""]. -/
def splitNl : JStr → List JStr
  | [] => [[]]
  | c :: rest =>
    if c = '\n' then [] :: splitNl rest
    else
      match splitNl rest with
      | [] => [[c]]
      | x :: xs => (c :: x) :: xs

/-- Model of JavaScript String.prototype.startsWith: hasPre p l is true
when p is an initial segment of l. -/
def hasPre : JStr → JStr → Bool
  | [], _ => true
  | _ :: _, [] => false
  | a :: p, b :: l => a = b && hasPre p l

/-- Strip an expected initial segment, or fail. -/
def stripPre? : JStr → JStr → Option JStr
  | [], l => some l
  | _ :: _, [] => none
  | a :: p, b :: l => if a = b then stripPre? p l else none

/-- Read a JSON string body up to its closing quote.  The canonical
serialization contains no escape sequences, so a backslash fails. -/
def readStr? : JStr → Option (JStr × JStr)
  | [] => none
  | c :: rest =>
    if c = '"' then some ([], rest)
    else if c = '\\' then none
    else
      match readStr? rest with
      | some (b, r) => some (c :: b, r)
      | none => none

/-- Decimal digit character of a value below ten. -/
def digitChar10 (n : Nat) : Char := Char.ofNat (48 + n)

/-- Whether a character is a decimal digit. -/
def isDigitChar (c : Char) : Bool := 48 ≤ c.toNat && c.toNat ≤ 57

/-- Numeric value of a digit character. -/
def digitVal (c : Char) : Nat := c.toNat - 48

/-- Decimal rendering of a natural number, most significant digit first.
The first argument is fuel; natDigits supplies enough. -/
def natDigitsF : Nat → Nat → JStr
  | 0, _ => []
  | fuel + 1, n =>
    if n < 10 then [digitChar10 n]
    else natDigitsF fuel (n / 10) ++ [digitChar10 (n % 10)]

/-- Decimal rendering of a natural number. -/
def natDigits (n : Nat) : JStr := natDigitsF (n + 1) n

/-- Consume a run of digit characters, accumulating their value. -/
def readDigits : JStr → Nat → Nat × JStr
  | [], acc => (acc, [])
  | c :: rest, acc =>
    if isDigitChar c then readDigits rest (acc * 10 + digitVal c) else (acc, c :: rest)

/-- Whether a string starts with a digit. -/
def headIsDigit : JStr → Bool
  | [] => false
  | c :: _ => isDigitChar c

/-- Read a JSON natural number (at least one digit). -/
def readNat? (l : JStr) : Option (Nat × JStr) :=
  if headIsDigit l then some (readDigits l 0) else none

/-- Read a JSON number-or-null, for the optional page_number field. -/
def readOptNat? (l : JStr) : Option (Option Nat × JStr) :=
  match stripPre? (str "null") l with
  | some r => some (none, r)
  | none =>
    match readNat? l with
    | some (n, r) => some (some n, r)
    | none => none

/-- Read a JSON string-or-null, for the optional url field. -/
def readOptStr? (l : JStr) : Option (Option JStr × JStr) :=
  match stripPre? (str "null") l with
  | some r => some (none, r)
  | none =>
    match l with
    | '"' :: r =>
      match readStr? r with
      | some (b, r2) => some (some b, r2)
      | none => none
    | _ => none

/-- Opening of every canonical record: a left brace, the type key and the
opening quote of the tag. -/
def typePre : JStr := str "\x7b\"type\": \""

/-- Parse one canonical source object. -/
def parseSourceObj? (l : JStr) : Option (Source × JStr) := do
  let r1 ← stripPre? (str "\x7b\"document_id\": \"") l
  let (d, r2) ← readStr? r1
  let r3 ← stripPre? (str ", \"filename\": \"") r2
  let (f, r4) ← readStr? r3
  let r5 ← stripPre? (str ", \"page_number\": ") r4
  let (p, r6) ← readOptNat? r5
  let r7 ← stripPre? (str ", \"score\": ") r6
  let (sc, r8) ← readNat? r7
  let r9 ← stripPre? (str ", \"excerpt\": \"") r8
  let (e, r10) ← readStr? r9
  let r11 ← stripPre? (str ", \"url\": ") r10
  let (u, r12) ← readOptStr? r11
  let r13 ← stripPre? (str "\x7d") r12
  pure (⟨d, f, p, sc, e, u⟩, r13)

/-- Parse a comma-separated run of source objects up to the closing
bracket, which is consumed.  The first argument is fuel. -/
def parseSourceItems : Nat → JStr → Option (List Source × JStr)
  | 0, _ => none
  | fuel + 1, l => do
    let (s, r) ← parseSourceObj? l
    match stripPre? (str ", ") r with
    | some r2 => do
      let (ss, r3) ← parseSourceItems fuel r2
      pure (s :: ss, r3)
    | none =>
      match r with
      | ']' :: r2 => pure ([s], r2)
      | _ => none

/-- Parse a canonical JSON array of source objects. -/
def parseSourceList? (l : JStr) : Option (List Source × JStr) :=
  match stripPre? (str "[]") l with
  | some r => some ([], r)
  | none =>
    match stripPre? (str "[") l with
    | some r => parseSourceItems r.length r
    | none => none

/-- Model of JSON.parse composed with the dispatch of lines 126-145 of
useChat.ts, as a recognizer of the canonical serialization of protocol
records.  A none result models a payload on which JSON.parse throws or
whose type field matches no dispatch branch. -/
def parseEvent? (l : JStr) : Option Event :=
  match stripPre? typePre l with
  | none => none
  | some r1 =>
    match readStr? r1 with
    | none => none
    | some (tag, r2) =>
      if tag = str "token" then
        match stripPre? (str ", \"content\": \"") r2 with
        | none => none
        | some r3 =>
          match readStr? r3 with
          | some (c, r4) => if r4 = ['\x7d'] then some (.token c) else none
          | none => none
      else if tag = str "sources" then
        match stripPre? (str ", \"sources\": ") r2 with
        | none => none
        | some r3 =>
          match parseSourceList? r3 with
          | some (ss, r4) => if r4 = ['\x7d'] then some (.sources ss) else none
          | none => none
      else if tag = str "conversation_id" then
        match stripPre? (str ", \"conversation_id\": \"") r2 with
        | none => none
        | some r3 =>
          match readStr? r3 with
          | some (i, r4) => if r4 = ['\x7d'] then some (.conversation_id i) else none
          | none => none
      else if tag = str "error" then
        match stripPre? (str ", \"message\": \"") r2 with
        | none => none
        | some r3 =>
          match readStr? r3 with
          | some (m, r4) => if r4 = ['\x7d'] then some (.error m) else none
          | none => none
      else none

/-- Canonical serialization of an optional JSON number. -/
def renderOptNat : Option Nat → JStr
  | none => str "null"
  | some n => natDigits n

/-- Canonical serialization of an optional JSON string. -/
def renderOptStr : Option JStr → JStr
  | none => str "null"
  | some u => '"' :: u ++ ['"']

/-- Canonical serialization of one source object. -/
def renderSource (s : Source) : JStr :=
  str "\x7b\"document_id\": \"" ++ s.document_id ++ ['"'] ++
  str ", \"filename\": \"" ++ s.filename ++ ['"'] ++
  str ", \"page_number\": " ++ renderOptNat s.page_number ++
  str ", \"score\": " ++ natDigits s.score ++
  str ", \"excerpt\": \"" ++ s.excerpt ++ ['"'] ++
  str ", \"url\": " ++ renderOptStr s.url ++ str "\x7d"

/-- Canonical comma-separated serialization of source objects. -/
def renderSourceItems : List Source → JStr
  | [] => []
  | [s] => renderSource s
  | s :: rest => renderSource s ++ str ", " ++ renderSourceItems rest

/-- Canonical serialization of a JSON array of source objects. -/
def renderSources (ss : List Source) : JStr :=
  '[' :: renderSourceItems ss ++ [']']

/-- Canonical serialization of a protocol record. -/
def renderEvent : Event → JStr
  | .token c => typePre ++ str "token\", \"content\": \"" ++ c ++ str "\"\x7d"
  | .sources ss => typePre ++ str "sources\", \"sources\": " ++ renderSources ss ++ str "\x7d"
  | .conversation_id i => typePre ++ str "conversation_id\", \"conversation_id\": \"" ++ i ++ str "\"\x7d"
  | .error m => typePre ++ str "error\", \"message\": \"" ++ m ++ str "\"\x7d"

/-- The framing marker of the stream (line 119 of useChat.ts). -/
def dataPre : JStr := str "data: "

/-- The termination sentinel (line 121 of useChat.ts). -/
def doneStr : JStr := str "[DONE]"

/-- One server-sent-event record as delivered on the wire: framing
marker, canonical payload, record separator. -/
def renderChunk (e : Event) : JStr := dataPre ++ renderEvent e ++ ['\n']

/-- A character that may occur unescaped inside a canonical JSON string:
printable and neither a quote nor a backslash. -/
def cleanChar (c : Char) : Bool :=
  !(c = '"') && !(c = '\\') && decide (32 ≤ c.toNat)

/-- All characters of the string are clean. -/
def cleanStr (l : JStr) : Bool := l.all cleanChar

/-- All string fields of the source are clean. -/
def cleanSource (s : Source) : Bool :=
  cleanStr s.document_id && cleanStr s.filename && cleanStr s.excerpt &&
  (match s.url with
   | none => true
   | some u => cleanStr u)

/-- All payload strings of the record are clean, so that the canonical
serialization is a valid single-line JSON text. -/
def cleanEvent : Event → Bool
  | .token c => cleanStr c
  | .sources ss => ss.all cleanSource
  | .conversation_id i => cleanStr i
  | .error m => cleanStr m

/-- JavaScript truthiness of the negated conversationId test at line 139:
!conversationId is true for undefined and for the empty string. -/
def jsStrFalsy : Option JStr → Bool
  | none => true
  | some s => s.isEmpty

/-- One iteration of the line loop, lines 118-149 of useChat.ts.  A line
that does not start with "data: " is skipped; the payload is sliced and
trimmed; the [DONE] sentinel is skipped; the payload is parsed inside the
try of line 123.  A parse failure is swallowed by the catch at line 146.
A token record appends to fullContent and rewrites the placeholder
message content by id; a sources record replaces the staged local list;
a conversation_id record assigns newConvId and, when the closure-captured
conversationId is falsy, sets the conversationId state and notifies
onConversationCreated; an error record reaches the throw at line 144,
which the catch at line 146 also swallows, so it has no effect. -/
def processLine (ctx : StreamCtx) (s : ChatState × StreamLocals) (line : JStr) :
    ChatState × StreamLocals :=
  if hasPre dataPre line then
    let data := trimChars (line.drop 6)
    if data = doneStr then s
    else
      match parseEvent? data with
      | none => s
      | some (.token c) =>
        let fullContent := s.2.fullContent ++ c
        ({ s.1 with
            messages := s.1.messages.map fun m =>
              if m.id = ctx.assistantId then { m with content := fullContent } else m },
         { s.2 with fullContent := fullContent })
      | some (.sources ss) => (s.1, { s.2 with sources := ss })
      | some (.conversation_id cid) =>
        let locals := { s.2 with newConvId := some cid }
        if jsStrFalsy ctx.closureConvId then
          ({ s.1 with
              conversationId := some cid,
              notifications := s.1.notifications ++ [cid] }, locals)
        else (s.1, locals)
      | some (.error _) => s
  else s

/-- One iteration of the read loop, lines 111-151: decode a chunk, split
it on newlines (with no carry-over of a partial trailing line), process
each line. -/
def processChunk (ctx : StreamCtx) (s : ChatState × StreamLocals) (chunk : JStr) :
    ChatState × StreamLocals :=
  (splitNl chunk).foldl (processLine ctx) s

/-- The whole read loop over the list of delivered chunks. -/
def processStream (ctx : StreamCtx) (s : ChatState × StreamLocals) (chunks : List JStr) :
    ChatState × StreamLocals :=
  chunks.foldl (processChunk ctx) s

/-- Lines 45-76 of sendMessage: the guard and the synchronous prelude.
Returns none (no state change) when the trimmed content is empty or a
stream is already in flight.  Otherwise appends the user message and the
streaming placeholder, sets isLoading and returns the closure context.
The abort of a previous controller at lines 48-50 is omitted: under the
sequential semantics of the hook the controller ref is non-null only
while isLoading is true (both are cleared together by the finally at
lines 190-193), so that branch is unreachable past the guard.
The user message record of lines 56-61: -/
def userMessage (st : ChatState) (content : JStr) : Message :=
  { id := st.nextId, role := .user, content := trimChars content,
    sources := none, timestamp := 0, isStreaming := false }

/-- The placeholder assistant message of lines 67-74. -/
def assistantMessage (st : ChatState) : Message :=
  { id := st.nextId + 1, role := .assistant, content := [],
    sources := none, timestamp := 0, isStreaming := true }

def submitStart (st : ChatState) (content : JStr) : Option (ChatState × StreamCtx) :=
  if (trimChars content).isEmpty || st.isLoading then none
  else
    some
      ({ st with
          messages := st.messages ++ [userMessage st content, assistantMessage st],
          isLoading := true,
          nextId := st.nextId + 2 },
       { closureConvId := st.conversationId, assistantId := st.nextId + 1 })

/-- Lines 153-163 and the finally at 190-193: commit content and staged
sources onto the placeholder, clear isStreaming, invalidate the
conversations cache, clear isLoading. -/
def finalizeSuccess (ctx : StreamCtx) (s : ChatState × StreamLocals) : ChatState :=
  { s.1 with
    messages := s.1.messages.map fun m =>
      if m.id = ctx.assistantId then
        { m with content := s.2.fullContent, sources := some s.2.sources, isStreaming := false }
      else m,
    cacheInvalidations := s.1.cacheInvalidations + 1,
    isLoading := false }

/-- Lines 165-172 and the finally: the AbortError path only clears the
isStreaming flag of the placeholder and returns. -/
def finalizeAbort (ctx : StreamCtx) (st : ChatState) : ChatState :=
  { st with
    messages := st.messages.map fun m =>
      if m.id = ctx.assistantId then { m with isStreaming := false } else m,
    isLoading := false }

/-- The fixed user-visible failure text of lines 183-184. -/
def failureText : JStr := str "Desolee, une erreur s\x27est produite. Veuillez reessayer."

/-- The toast text of line 176. -/
def serverErrorToast : JStr := str "Erreur lors de la communication avec le serveur"

/-- Lines 175-189 and the finally: the transport-failure path replaces
the placeholder content with the fixed failure text and raises a toast.
No decoded record reaches this path, because the only throw inside the
loop (line 144) is caught by the catch at line 146. -/
def finalizeFailure (ctx : StreamCtx) (st : ChatState) : ChatState :=
  { st with
    messages := st.messages.map fun m =>
      if m.id = ctx.assistantId then
        { m with content := failureText, isStreaming := false }
      else m,
    toasts := st.toasts ++ [serverErrorToast],
    isLoading := false }

/-- A whole sendMessage execution whose stream delivers the given chunks
and then closes normally. -/
def sendMessage (st : ChatState) (content : JStr) (chunks : List JStr) : ChatState :=
  match submitStart st content with
  | none => st
  | some (st1, ctx) => finalizeSuccess ctx (processStream ctx (st1, initLocals) chunks)

/-- A sendMessage execution aborted by stopStreaming (lines 199-203)
after the given chunks have been processed: the reader rejects with an
AbortError and the catch at lines 165-172 finalizes. -/
def sendMessageAborted (st : ChatState) (content : JStr) (chunksBeforeAbort : List JStr) :
    ChatState :=
  match submitStart st content with
  | none => st
  | some (st1, ctx) =>
    finalizeAbort ctx (processStream ctx (st1, initLocals) chunksBeforeAbort).1

/-- A sendMessage execution that hits a transport failure (fetch
rejection, non-ok status, missing body) after the given chunks. -/
def sendMessageFailed (st : ChatState) (content : JStr) (chunksBeforeFailure : List JStr) :
    ChatState :=
  match submitStart st content with
  | none => st
  | some (st1, ctx) =>
    finalizeFailure ctx (processStream ctx (st1, initLocals) chunksBeforeFailure).1

/-- Line 220 of useChat.ts: prev.map(role).lastIndexOf(assistant),
returning minus one when no assistant message exists. -/
def lastIndexOfAssistant (msgs : List Message) : Int :=
  (msgs.foldl
    (fun (p : Int × Int) m => (if m.role = .assistant then p.2 else p.1, p.2 + 1))
    (-1, 0)).1

/-- Lines 219-223: drop the most recent assistant message and everything
after it; keep the transcript unchanged when there is none. -/
def truncateAtLastAssistant (msgs : List Message) : List Message :=
  let i := lastIndexOfAssistant msgs
  if i = -1 then msgs else msgs.take i.toNat

/-- Lines 213-226: regenerateLastResponse finds the last user message by
reverse scan, truncates at the last assistant message, and re-drives
sendMessage with the found content.  The chunks argument is the stream
the re-driven exchange would consume. -/
def regenerateLastResponse (st : ChatState) (chunks : List JStr) : ChatState :=
  match st.messages.reverse.find? (fun m => m.role == Role.user) with
  | none => st
  | some lastUserMessage =>
    sendMessage { st with messages := truncateAtLastAssistant st.messages }
      lastUserMessage.content chunks

/-- Well-formedness of the id counter: every existing message id is
below the counter, so freshly generated ids are unique. -/
abbrev WFIds (st : ChatState) : Prop := ∀ m ∈ st.messages, m.id < st.nextId

/-- Rewrite the content of the messages carrying the given id. -/
def setAidContent (aid : Nat) (c : JStr) (msgs : List Message) : List Message :=
  msgs.map fun m => if m.id = aid then { m with content := c } else m

/-- One step of staging: a sources record replaces the staged list, any
other record leaves it unchanged. -/
def stagedStep (acc : List Source) : Event → List Source
  | .sources ss => ss
  | _ => acc

/-- The citation list a stream of records leaves staged: the payload of
the last sources record, or the initial empty list. -/
def stagedSources (es : List Event) : List Source :=
  es.foldl stagedStep []

/-- Concrete example states used by counterexamples and witnesses. -/
def st0 : ChatState :=
  { messages := [], isLoading := false, conversationId := none, nextId := 0,
    notifications := [], toasts := [], cacheInvalidations := 0 }

/-- A finished transcript: one user question and one complete answer. -/
def stC2 : ChatState :=
  { messages :=
      [{ id := 0, role := .user, content := str "Q1", sources := none,
         timestamp := 0, isStreaming := false },
       { id := 1, role := .assistant, content := str "A1", sources := some [],
         timestamp := 0, isStreaming := false }],
    isLoading := false, conversationId := none, nextId := 2,
    notifications := [], toasts := [], cacheInvalidations := 0 }

/-- A mid-stream state: the placeholder is still streaming. -/
def stC3 : ChatState :=
  { messages :=
      [{ id := 0, role := .user, content := str "Q", sources := none,
         timestamp := 0, isStreaming := false },
       { id := 1, role := .assistant, content := str "part", sources := none,
         timestamp := 0, isStreaming := true }],
    isLoading := true, conversationId := none, nextId := 2,
    notifications := [], toasts := [], cacheInvalidations := 0 }

/-- A stream carrying a decoded error record followed by a token record. -/
def chunksC1 : List JStr :=
  [str "data: \x7b\"type\": \"error\", \"message\": \"X\"\x7d\n",
   str "data: \x7b\"type\": \"token\", \"content\": \"hi\"\x7d\n"]

/-- A stream carrying two conversation-identifier records, A then B. -/
def chunksC4 : List JStr :=
  [str "data: \x7b\"type\": \"conversation_id\", \"conversation_id\": \"A\"\x7d\n",
   str "data: \x7b\"type\": \"conversation_id\", \"conversation_id\": \"B\"\x7d\n"]

/-- A stream where the second token record is split across two chunks. -/
def chunksC5 : List JStr :=
  [str "data: \x7b\"type\": \"token\", \"content\": \"ab\"\x7d\n",
   str "data: \x7b\"type\": \"to",
   str "ken\", \"content\": \"cd\"\x7d\n"]

/-- The state submitStart yields from st0 on the input hi. -/
def st1W : ChatState :=
  { st0 with
    messages := [userMessage st0 (str "hi"), assistantMessage st0],
    isLoading := true, nextId := 2 }

/-- The stream context submitStart yields from st0. -/
def ctxW : StreamCtx := { closureConvId := none, assistantId := 1 }

/-- A concrete citation used by witnesses. -/
def srcW : Source :=
  { document_id := str "d", filename := str "f", page_number := some 3, score := 97,
    excerpt := str "e", url := some (str "u") }

/-- A concrete event stream used by witnesses: token, sources, token. -/
def esW : List Event := [.token (str "a"), .sources [srcW], .token (str "b")]

theorem hasPre_append (p r : JStr) : hasPre p (p ++ r) = true := by
  induction p with
  | nil => rfl
  | cons a p ih => simp [hasPre, ih]

theorem stripPre?_append (p r : JStr) : stripPre? p (p ++ r) = some r := by
  induction p with
  | nil => rfl
  | cons a p ih => simp [stripPre?, ih]

theorem stripPre?_cons_ne {a b : Char} (p l : JStr) (h : a ≠ b) :
    stripPre? (a :: p) (b :: l) = none := by
  simp [stripPre?, h]

theorem cleanChar_spec {c : Char} (h : cleanChar c = true) :
    c ≠ '"' ∧ c ≠ '\\' ∧ 32 ≤ c.toNat := by
  simp [cleanChar] at h
  exact ⟨h.1.1, h.1.2, h.2⟩

theorem cleanStr_mem {l : JStr} {c : Char} (h : cleanStr l = true) (hc : c ∈ l) :
    cleanChar c = true := by
  simp [cleanStr, List.all_eq_true] at h
  exact h c hc

theorem readStr?_append (s rest : JStr) (h : cleanStr s = true) :
    readStr? (s ++ '"' :: rest) = some (s, rest) := by
  induction s with
  | nil => rfl
  | cons c t ih =>
    have hc := cleanChar_spec (cleanStr_mem h (List.mem_cons_self c t))
    have ht : cleanStr t = true := by
      simp [cleanStr, List.all_eq_true] at h ⊢
      exact h.2
    simp [readStr?, hc.1, hc.2.1, ih ht]

theorem digitChar10_isDigit {n : Nat} (h : n < 10) :
    isDigitChar (digitChar10 n) = true := by
  interval_cases n <;> decide

theorem digitVal_digitChar10 {n : Nat} (h : n < 10) :
    digitVal (digitChar10 n) = n := by
  interval_cases n <;> decide

theorem natDigitsF_all_digits :
    ∀ fuel n c, c ∈ natDigitsF fuel n → isDigitChar c = true := by
  intro fuel
  induction fuel with
  | zero => intro n c hc; simp [natDigitsF] at hc
  | succ fuel ih =>
    intro n c hc
    by_cases hn : n < 10
    · simp [natDigitsF, hn] at hc
      subst hc
      exact digitChar10_isDigit hn
    · simp [natDigitsF, hn] at hc
      rcases hc with hc | hc
      · exact ih _ _ hc
      · subst hc
        exact digitChar10_isDigit (Nat.mod_lt _ (by omega))

theorem natDigitsF_ne_nil {fuel n : Nat} (h : n < fuel) : natDigitsF fuel n ≠ [] := by
  cases fuel with
  | zero => omega
  | succ fuel =>
    by_cases hn : n < 10 <;> simp [natDigitsF, hn]

theorem readDigits_stop {rest : JStr} (h : headIsDigit rest = false) (acc : Nat) :
    readDigits rest acc = (acc, rest) := by
  cases rest with
  | nil => rfl
  | cons c r =>
    simp [headIsDigit] at h
    simp [readDigits, h]

theorem readDigits_natDigitsF :
    ∀ fuel n acc rest, n < fuel →
      readDigits (natDigitsF fuel n ++ rest) acc
        = readDigits rest (acc * 10 ^ (natDigitsF fuel n).length + n) := by
  intro fuel
  induction fuel with
  | zero => intro n acc rest h; omega
  | succ fuel ih =>
    intro n acc rest h
    by_cases hn : n < 10
    · simp [natDigitsF, hn, readDigits, digitChar10_isDigit hn, digitVal_digitChar10 hn]
    · have h10 : (10 : Nat) ≤ n := by omega
      have hdiv : n / 10 < fuel := by
        have h1 : n / 10 < n := Nat.div_lt_self (by omega) (by omega)
        omega
      have hmod : n % 10 < 10 := Nat.mod_lt _ (by omega)
      simp only [natDigitsF, if_neg hn, List.append_assoc, List.cons_append, List.nil_append]
      rw [ih _ acc _ hdiv]
      simp [readDigits, digitChar10_isDigit hmod, digitVal_digitChar10 hmod,
        List.length_append, pow_succ]
      ring_nf
      congr 1
      have := Nat.div_add_mod n 10
      omega

theorem readNat?_append (n : Nat) (rest : JStr) (h : headIsDigit rest = false) :
    readNat? (natDigits n ++ rest) = some (n, rest) := by
  have hlt : n < n + 1 := Nat.lt_succ_self n
  obtain ⟨c, t, hct⟩ : ∃ c t, natDigits n = c :: t := by
    have := natDigitsF_ne_nil hlt
    unfold natDigits
    cases hh : natDigitsF (n + 1) n with
    | nil => exact absurd hh this
    | cons c t => exact ⟨c, t, rfl⟩
  have hcdig : isDigitChar c = true :=
    natDigitsF_all_digits _ _ _ (by rw [show natDigitsF (n+1) n = c :: t from hct]; exact List.mem_cons_self c t)
  have hread : readDigits (natDigits n ++ rest) 0
      = readDigits rest (0 * 10 ^ (natDigits n).length + n) :=
    readDigits_natDigitsF (n + 1) n 0 rest hlt
  unfold readNat?
  rw [hct] at hread ⊢
  simp only [List.cons_append, headIsDigit, hcdig, if_pos]
  simp only [List.cons_append] at hread
  rw [hread, readDigits_stop h]
  simp

theorem digit_ne_of_big {c : Char} (h : isDigitChar c = true) {d : Char}
    (hd : 58 ≤ d.toNat) : d ≠ c := by
  simp [isDigitChar] at h
  intro he
  subst he
  omega

theorem readOptNat?_null (rest : JStr) :
    readOptNat? (str "null" ++ rest) = some (none, rest) := by
  unfold readOptNat?
  rw [stripPre?_append]

theorem natDigits_cons (n : Nat) :
    ∃ c t, natDigits n = c :: t ∧ isDigitChar c = true := by
  have hlt : n < n + 1 := Nat.lt_succ_self n
  cases hh : natDigits n with
  | nil => exact absurd hh (natDigitsF_ne_nil hlt)
  | cons c t =>
    refine ⟨c, t, rfl, natDigitsF_all_digits (n + 1) n c ?_⟩
    rw [show natDigitsF (n + 1) n = natDigits n from rfl, hh]
    exact List.mem_cons_self c t

theorem readOptNat?_num (n : Nat) (rest : JStr) (h : headIsDigit rest = false) :
    readOptNat? (natDigits n ++ rest) = some (some n, rest) := by
  obtain ⟨c, t, hct, hdig⟩ := natDigits_cons n
  unfold readOptNat?
  rw [hct]
  have hne : 'n' ≠ c := digit_ne_of_big hdig (by decide)
  rw [show str "null" = 'n' :: str "ull" from rfl]
  rw [List.cons_append, stripPre?_cons_ne _ _ hne]
  rw [← List.cons_append, ← hct, readNat?_append n rest h]

theorem readOptStr?_null (rest : JStr) :
    readOptStr? (str "null" ++ rest) = some (none, rest) := by
  unfold readOptStr?
  rw [stripPre?_append]

theorem readOptStr?_str (u rest : JStr) (h : cleanStr u = true) :
    readOptStr? (renderOptStr (some u) ++ rest) = some (some u, rest) := by
  unfold readOptStr? renderOptStr
  rw [show ('"' :: u ++ ['"']) ++ rest = '"' :: (u ++ '"' :: rest) by simp]
  rw [show str "null" = 'n' :: str "ull" from rfl]
  rw [stripPre?_cons_ne _ _ (by decide : 'n' ≠ '"')]
  simp only []
  rw [readStr?_append u rest h]

theorem cleanSource_spec {s : Source} (h : cleanSource s = true) :
    cleanStr s.document_id = true ∧ cleanStr s.filename = true ∧ cleanStr s.excerpt = true ∧
      (∀ u, s.url = some u → cleanStr u = true) := by
  unfold cleanSource at h
  simp only [Bool.and_eq_true] at h
  refine ⟨h.1.1.1, h.1.1.2, h.1.2, ?_⟩
  intro u hu
  rw [hu] at h
  exact h.2

theorem readOptNat?_render (p : Option Nat) (rest : JStr) (h : headIsDigit rest = false) :
    readOptNat? (renderOptNat p ++ rest) = some (p, rest) := by
  cases p with
  | none => exact readOptNat?_null _
  | some p => exact readOptNat?_num p _ h

theorem readOptStr?_render (u : Option JStr) (rest : JStr)
    (h : ∀ x, u = some x → cleanStr x = true) :
    readOptStr? (renderOptStr u ++ rest) = some (u, rest) := by
  cases u with
  | none => exact readOptStr?_null _
  | some x => exact readOptStr?_str x _ (h x rfl)

theorem parseSourceObj?_render (s : Source) (rest : JStr) (h : cleanSource s = true) :
    parseSourceObj? (renderSource s ++ rest) = some (s, rest) := by
  obtain ⟨hd, hf, he, hu⟩ := cleanSource_spec h
  unfold parseSourceObj? renderSource
  simp only [List.append_assoc, List.cons_append, List.singleton_append, List.nil_append]
  rw [stripPre?_append]
  simp only [Option.bind_eq_bind, Option.some_bind]
  rw [readStr?_append _ _ hd]
  simp only [Option.some_bind]
  rw [stripPre?_append]
  simp only [Option.some_bind]
  rw [readStr?_append _ _ hf]
  simp only [Option.some_bind]
  rw [stripPre?_append]
  simp only [Option.some_bind]
  rw [readOptNat?_render _ _ (by rfl)]
  simp only [Option.some_bind]
  rw [stripPre?_append]
  simp only [Option.some_bind]
  rw [readNat?_append _ _ (by rfl)]
  simp only [Option.some_bind]
  rw [stripPre?_append]
  simp only [Option.some_bind]
  rw [readStr?_append _ _ he]
  simp only [Option.some_bind]
  rw [stripPre?_append]
  simp only [Option.some_bind]
  rw [readOptStr?_render _ _ hu]
  simp only [Option.some_bind]
  rw [stripPre?_append]
  simp only [Option.some_bind]
  rfl

theorem renderSource_cons (s : Source) : ∃ t, renderSource s = '\x7b' :: t := ⟨_, rfl⟩

theorem parseSourceItems_render :
    ∀ ss : List Source, ∀ fuel rest, ss ≠ [] → ss.length ≤ fuel →
      (∀ s ∈ ss, cleanSource s = true) →
      parseSourceItems fuel (renderSourceItems ss ++ ']' :: rest) = some (ss, rest) := by
  intro ss
  induction ss with
  | nil => intro fuel rest hne; exact absurd rfl hne
  | cons s t ih =>
    intro fuel rest _ hlen hclean
    cases fuel with
    | zero => simp at hlen
    | succ fuel =>
      have hs : cleanSource s = true := hclean s (List.mem_cons_self s t)
      cases t with
      | nil =>
        unfold parseSourceItems
        rw [show renderSourceItems [s] = renderSource s from rfl]
        rw [parseSourceObj?_render s _ hs]
        simp only [Option.bind_eq_bind, Option.some_bind]
        rw [show str ", " = ',' :: str " " from rfl]
        rw [stripPre?_cons_ne _ _ (by decide : ',' ≠ ']')]
        rfl
      | cons s2 t2 =>
        unfold parseSourceItems
        rw [show renderSourceItems (s :: s2 :: t2)
            = renderSource s ++ str ", " ++ renderSourceItems (s2 :: t2) from rfl]
        rw [List.append_assoc, List.append_assoc]
        rw [parseSourceObj?_render s _ hs]
        simp only [Option.bind_eq_bind, Option.some_bind]
        rw [stripPre?_append]
        simp only []
        rw [ih fuel rest (by simp) (by simp at hlen ⊢; omega)
          (fun x hx => hclean x (List.mem_cons_of_mem s hx))]
        rfl

theorem renderSourceItems_length_ge (ss : List Source) :
    ss.length ≤ (renderSourceItems ss).length := by
  induction ss with
  | nil => simp [renderSourceItems]
  | cons s t ih =>
    obtain ⟨x, hx⟩ := renderSource_cons s
    cases t with
    | nil => simp [renderSourceItems, hx]
    | cons s2 t2 =>
      rw [show renderSourceItems (s :: s2 :: t2)
          = renderSource s ++ str ", " ++ renderSourceItems (s2 :: t2) from rfl]
      simp only [List.length_append, List.length_cons, hx]
      simp at ih ⊢
      omega

theorem parseSourceList?_render (ss : List Source) (rest : JStr)
    (h : ∀ s ∈ ss, cleanSource s = true) :
    parseSourceList? (renderSources ss ++ rest) = some (ss, rest) := by
  cases ss with
  | nil =>
    unfold parseSourceList? renderSources
    rw [show (('[' : Char) :: renderSourceItems [] ++ [']']) ++ rest
        = str "[]" ++ rest from rfl]
    rw [stripPre?_append]
  | cons s t =>
    obtain ⟨x, hx⟩ := renderSource_cons s
    have hcons : ∃ y, renderSourceItems (s :: t) = '\x7b' :: y := by
      cases t with
      | nil => exact ⟨x, hx⟩
      | cons s2 t2 =>
        refine ⟨x ++ str ", " ++ renderSourceItems (s2 :: t2), ?_⟩
        rw [show renderSourceItems (s :: s2 :: t2)
            = renderSource s ++ str ", " ++ renderSourceItems (s2 :: t2) from rfl, hx]
        simp
    obtain ⟨y, hy⟩ := hcons
    unfold parseSourceList? renderSources
    rw [hy]
    rw [show ((('[' : Char) :: ('\x7b' :: y) ++ [']']) ++ rest : JStr)
        = '[' :: '\x7b' :: (y ++ ']' :: rest) by simp]
    rw [show stripPre? (str "[]") ('[' :: '\x7b' :: (y ++ ']' :: rest)) = none by
      simp [stripPre?, str]]
    rw [show stripPre? (str "[") ('[' :: '\x7b' :: (y ++ ']' :: rest))
        = some ('\x7b' :: (y ++ ']' :: rest)) by simp [stripPre?, str]]
    have hlen : (s :: t).length ≤ ('\x7b' :: (y ++ ']' :: rest)).length := by
      have h1 := renderSourceItems_length_ge (s :: t)
      rw [hy] at h1
      simp at h1 ⊢
      omega
    have := parseSourceItems_render (s :: t) ('\x7b' :: (y ++ ']' :: rest)).length rest
      (by simp) hlen h
    rw [hy] at this
    simpa using this

theorem parseEvent?_render (e : Event) (h : cleanEvent e = true) :
    parseEvent? (renderEvent e) = some e := by
  cases e with
  | token c =>
    have hc : cleanStr c = true := h
    unfold parseEvent? renderEvent
    simp only [List.append_assoc]
    rw [stripPre?_append]
    simp only []
    rw [show str "token\", \"content\": \"" ++ (c ++ str "\"\x7d")
        = str "token" ++ ('"' :: (str ", \"content\": \"" ++ (c ++ ('"' :: ['\x7d'])))) from rfl]
    rw [readStr?_append _ _ (by decide)]
    simp only []
    rw [if_pos trivial]
    rw [stripPre?_append]
    simp only []
    rw [readStr?_append _ _ hc]
    simp only []
    simp
  | sources ss =>
    have hs : ∀ s ∈ ss, cleanSource s = true := by
      simp only [cleanEvent, List.all_eq_true] at h
      exact h
    unfold parseEvent? renderEvent
    simp only [List.append_assoc]
    rw [stripPre?_append]
    simp only []
    rw [show str "sources\", \"sources\": " ++ (renderSources ss ++ str "\x7d")
        = str "sources" ++ ('"' :: (str ", \"sources\": " ++ (renderSources ss ++ ['\x7d']))) from rfl]
    rw [readStr?_append _ _ (by decide)]
    simp only []
    rw [if_pos trivial]
    rw [stripPre?_append]
    simp only []
    rw [show (renderSources ss ++ ['\x7d'] : JStr) = renderSources ss ++ ['\x7d'] from rfl]
    rw [parseSourceList?_render ss ['\x7d'] hs]
    simp only []
    rw [if_neg (by decide : ¬(str "sources" = str "token"))]
    simp
  | conversation_id i =>
    have hc : cleanStr i = true := h
    unfold parseEvent? renderEvent
    simp only [List.append_assoc]
    rw [stripPre?_append]
    simp only []
    rw [show str "conversation_id\", \"conversation_id\": \"" ++ (i ++ str "\"\x7d")
        = str "conversation_id" ++ ('"' :: (str ", \"conversation_id\": \"" ++ (i ++ ('"' :: ['\x7d'])))) from rfl]
    rw [readStr?_append _ _ (by decide)]
    simp only []
    rw [if_pos trivial]
    rw [stripPre?_append]
    simp only []
    rw [readStr?_append _ _ hc]
    simp only []
    rw [if_neg (by decide : ¬(str "conversation_id" = str "token"))]
    rw [if_neg (by decide : ¬(str "conversation_id" = str "sources"))]
    simp
  | error m =>
    have hc : cleanStr m = true := h
    unfold parseEvent? renderEvent
    simp only [List.append_assoc]
    rw [stripPre?_append]
    simp only []
    rw [show str "error\", \"message\": \"" ++ (m ++ str "\"\x7d")
        = str "error" ++ ('"' :: (str ", \"message\": \"" ++ (m ++ ('"' :: ['\x7d'])))) from rfl]
    rw [readStr?_append _ _ (by decide)]
    simp only []
    rw [if_pos trivial]
    rw [stripPre?_append]
    simp only []
    rw [readStr?_append _ _ hc]
    simp only []
    rw [if_neg (by decide : ¬(str "error" = str "token"))]
    rw [if_neg (by decide : ¬(str "error" = str "sources"))]
    rw [if_neg (by decide : ¬(str "error" = str "conversation_id"))]
    simp

theorem trim_keep (a : Char) (mid : JStr) (b : Char)
    (h1 : jsWhitespace a = false) (h2 : jsWhitespace b = false) :
    trimChars (a :: mid ++ [b]) = a :: mid ++ [b] := by
  unfold trimChars
  rw [List.cons_append, List.dropWhile_cons, h1]
  simp only [Bool.false_eq_true, if_false]
  rw [show ((a :: (mid ++ [b])).reverse : JStr) = b :: (mid.reverse ++ [a]) by simp]
  rw [List.dropWhile_cons, h2]
  simp

theorem splitNl_append_newline (l : JStr) (h : '\n' ∉ l) :
    splitNl (l ++ ['\n']) = [l, []] := by
  induction l with
  | nil => rfl
  | cons c t ih =>
    have hc : ¬(c = '\n') := by
      intro he
      exact h (by rw [he]; exact List.mem_cons_self _ _)
    have ht : '\n' ∉ t := fun hm => h (List.mem_cons_of_mem c hm)
    rw [List.cons_append]
    unfold splitNl
    rw [if_neg hc, ih ht]

theorem newline_not_mem_clean {l : JStr} (h : cleanStr l = true) : '\n' ∉ l := by
  intro hm
  have := cleanStr_mem h hm
  rw [show cleanChar '\n' = false from by decide] at this
  exact Bool.false_ne_true this

theorem newline_not_mem_natDigits (n : Nat) : '\n' ∉ natDigits n := by
  intro hm
  have := natDigitsF_all_digits (n + 1) n '\n' hm
  rw [show isDigitChar '\n' = false from by decide] at this
  exact Bool.false_ne_true this

theorem newline_not_mem_renderOptNat (p : Option Nat) : '\n' ∉ renderOptNat p := by
  cases p with
  | none => decide
  | some n => exact newline_not_mem_natDigits n

theorem newline_not_mem_renderOptStr {u : Option JStr}
    (h : ∀ x, u = some x → cleanStr x = true) : '\n' ∉ renderOptStr u := by
  cases u with
  | none => decide
  | some x =>
    intro hm
    unfold renderOptStr at hm
    rcases List.mem_cons.mp hm with hm | hm
    · exact absurd hm.symm (by decide)
    rcases List.mem_append.mp hm with hm | hm
    · exact newline_not_mem_clean (h x rfl) hm
    · simp at hm

theorem nl_append {X Y : JStr} (hx : '\n' ∉ X) (hy : '\n' ∉ Y) : '\n' ∉ X ++ Y := by
  intro hm
  rcases List.mem_append.mp hm with hm | hm
  · exact hx hm
  · exact hy hm

theorem newline_not_mem_renderSource {s : Source} (h : cleanSource s = true) :
    '\n' ∉ renderSource s := by
  obtain ⟨hd, hf, he, hu⟩ := cleanSource_spec h
  unfold renderSource
  exact nl_append (nl_append (nl_append (nl_append (nl_append (nl_append (nl_append
    (nl_append (nl_append (nl_append (nl_append (nl_append (nl_append (nl_append
      (nl_append (by decide) (newline_not_mem_clean hd)) (by decide)) (by decide))
      (newline_not_mem_clean hf)) (by decide)) (by decide))
      (newline_not_mem_renderOptNat s.page_number)) (by decide))
      (newline_not_mem_natDigits s.score)) (by decide)) (newline_not_mem_clean he))
      (by decide)) (by decide)) (newline_not_mem_renderOptStr hu)) (by decide)

theorem newline_not_mem_renderSourceItems {ss : List Source}
    (h : ∀ s ∈ ss, cleanSource s = true) : '\n' ∉ renderSourceItems ss := by
  induction ss with
  | nil => decide
  | cons s t ih =>
    have hs := h s (List.mem_cons_self s t)
    have ht := fun x hx => h x (List.mem_cons_of_mem s hx)
    cases t with
    | nil =>
      rw [show renderSourceItems [s] = renderSource s from rfl]
      exact newline_not_mem_renderSource hs
    | cons s2 t2 =>
      rw [show renderSourceItems (s :: s2 :: t2)
          = renderSource s ++ str ", " ++ renderSourceItems (s2 :: t2) from rfl]
      intro hm
      rcases List.mem_append.mp hm with hm | hm
      · rcases List.mem_append.mp hm with hm | hm
        · exact newline_not_mem_renderSource hs hm
        · exact absurd hm (by decide)
      · exact ih ht hm

theorem newline_not_mem_renderSources {ss : List Source}
    (h : ∀ s ∈ ss, cleanSource s = true) : '\n' ∉ renderSources ss := by
  unfold renderSources
  intro hm
  rcases List.mem_append.mp hm with hm | hm
  · rcases List.mem_cons.mp hm with hm | hm
    · exact absurd hm.symm (by decide)
    · exact newline_not_mem_renderSourceItems h hm
  · simp at hm

theorem newline_not_mem_renderEvent {e : Event} (h : cleanEvent e = true) :
    '\n' ∉ renderEvent e := by
  cases e with
  | token c =>
    intro hm
    unfold renderEvent at hm
    simp only [List.append_assoc, List.mem_append] at hm
    rcases hm with hm | hm | hm | hm
    · exact absurd hm (by decide)
    · exact absurd hm (by decide)
    · exact newline_not_mem_clean h hm
    · exact absurd hm (by decide)
  | sources ss =>
    intro hm
    unfold renderEvent at hm
    simp only [List.append_assoc, List.mem_append] at hm
    rcases hm with hm | hm | hm | hm
    · exact absurd hm (by decide)
    · exact absurd hm (by decide)
    · exact newline_not_mem_renderSources (by simpa [cleanEvent, List.all_eq_true] using h) hm
    · exact absurd hm (by decide)
  | conversation_id i =>
    intro hm
    unfold renderEvent at hm
    simp only [List.append_assoc, List.mem_append] at hm
    rcases hm with hm | hm | hm | hm
    · exact absurd hm (by decide)
    · exact absurd hm (by decide)
    · exact newline_not_mem_clean h hm
    · exact absurd hm (by decide)
  | error m =>
    intro hm
    unfold renderEvent at hm
    simp only [List.append_assoc, List.mem_append] at hm
    rcases hm with hm | hm | hm | hm
    · exact absurd hm (by decide)
    · exact absurd hm (by decide)
    · exact newline_not_mem_clean h hm
    · exact absurd hm (by decide)

theorem renderEvent_shape (e : Event) : ∃ mid, renderEvent e = '\x7b' :: mid ++ ['\x7d'] := by
  cases e with
  | token c =>
    refine ⟨str "\"type\": \"" ++ str "token\", \"content\": \"" ++ c ++ ['"'], ?_⟩
    rw [show renderEvent (.token c)
        = typePre ++ str "token\", \"content\": \"" ++ c ++ str "\"\x7d" from rfl]
    rw [show typePre = '\x7b' :: str "\"type\": \"" from rfl,
        show str "\"\x7d" = ['"', '\x7d'] from rfl]
    simp
  | sources ss =>
    refine ⟨str "\"type\": \"" ++ str "sources\", \"sources\": " ++ renderSources ss, ?_⟩
    rw [show renderEvent (.sources ss)
        = typePre ++ str "sources\", \"sources\": " ++ renderSources ss ++ str "\x7d" from rfl]
    rw [show typePre = '\x7b' :: str "\"type\": \"" from rfl,
        show str "\x7d" = ['\x7d'] from rfl]
    simp
  | conversation_id i =>
    refine ⟨str "\"type\": \"" ++ str "conversation_id\", \"conversation_id\": \"" ++ i ++ ['"'], ?_⟩
    rw [show renderEvent (.conversation_id i)
        = typePre ++ str "conversation_id\", \"conversation_id\": \"" ++ i ++ str "\"\x7d" from rfl]
    rw [show typePre = '\x7b' :: str "\"type\": \"" from rfl,
        show str "\"\x7d" = ['"', '\x7d'] from rfl]
    simp
  | error m =>
    refine ⟨str "\"type\": \"" ++ str "error\", \"message\": \"" ++ m ++ ['"'], ?_⟩
    rw [show renderEvent (.error m)
        = typePre ++ str "error\", \"message\": \"" ++ m ++ str "\"\x7d" from rfl]
    rw [show typePre = '\x7b' :: str "\"type\": \"" from rfl,
        show str "\"\x7d" = ['"', '\x7d'] from rfl]
    simp

theorem trim_renderEvent (e : Event) :
    trimChars (renderEvent e) = renderEvent e := by
  obtain ⟨mid, hmid⟩ := renderEvent_shape e
  rw [hmid]
  exact trim_keep _ _ _ (by decide) (by decide)

theorem renderEvent_ne_doneStr (e : Event) : ¬(renderEvent e = doneStr) := by
  obtain ⟨mid, hmid⟩ := renderEvent_shape e
  rw [hmid, show doneStr = '[' :: str "DONE]" from rfl]
  intro hx
  have := List.head_eq_of_cons_eq hx
  exact absurd this (by decide)

theorem processLine_nil (ctx : StreamCtx) (s : ChatState × StreamLocals) :
    processLine ctx s [] = s := rfl

theorem drop6_dataPre (X : JStr) : (dataPre ++ X).drop 6 = X := rfl

theorem processChunk_render (ctx : StreamCtx) (s : ChatState × StreamLocals)
    {e : Event} (h : cleanEvent e = true) :
    processChunk ctx s (renderChunk e) = processLine ctx s (dataPre ++ renderEvent e) := by
  unfold processChunk renderChunk
  rw [splitNl_append_newline _ (nl_append (by decide) (newline_not_mem_renderEvent h))]
  simp [List.foldl, processLine_nil]

theorem processChunk_token (ctx : StreamCtx) (s : ChatState × StreamLocals)
    (c : JStr) (hc : cleanStr c = true) :
    processChunk ctx s (renderChunk (.token c))
      = ({ s.1 with
            messages := s.1.messages.map fun m =>
              if m.id = ctx.assistantId then { m with content := s.2.fullContent ++ c } else m },
         { s.2 with fullContent := s.2.fullContent ++ c }) := by
  have hclean : cleanEvent (.token c) = true := hc
  rw [processChunk_render ctx s hclean]
  unfold processLine
  rw [if_pos (hasPre_append dataPre (renderEvent (Event.token c)))]
  simp only [drop6_dataPre, trim_renderEvent]
  rw [if_neg (renderEvent_ne_doneStr (Event.token c))]
  rw [parseEvent?_render _ hclean]

theorem processChunk_sources (ctx : StreamCtx) (s : ChatState × StreamLocals)
    (ss : List Source) (hs : (ss.all cleanSource) = true) :
    processChunk ctx s (renderChunk (.sources ss))
      = (s.1, { s.2 with sources := ss }) := by
  have hclean : cleanEvent (.sources ss) = true := hs
  rw [processChunk_render ctx s hclean]
  unfold processLine
  rw [if_pos (hasPre_append dataPre (renderEvent (Event.sources ss)))]
  simp only [drop6_dataPre, trim_renderEvent]
  rw [if_neg (renderEvent_ne_doneStr (Event.sources ss))]
  rw [parseEvent?_render _ hclean]

theorem processChunk_conversation (ctx : StreamCtx) (s : ChatState × StreamLocals)
    (i : JStr) (hi : cleanStr i = true) :
    processChunk ctx s (renderChunk (.conversation_id i))
      = (if jsStrFalsy ctx.closureConvId then
           ({ s.1 with
               conversationId := some i,
               notifications := s.1.notifications ++ [i] },
            { s.2 with newConvId := some i })
         else (s.1, { s.2 with newConvId := some i })) := by
  have hclean : cleanEvent (.conversation_id i) = true := hi
  rw [processChunk_render ctx s hclean]
  unfold processLine
  rw [if_pos (hasPre_append dataPre (renderEvent (Event.conversation_id i)))]
  simp only [drop6_dataPre, trim_renderEvent]
  rw [if_neg (renderEvent_ne_doneStr (Event.conversation_id i))]
  rw [parseEvent?_render _ hclean]

theorem processChunk_error (ctx : StreamCtx) (s : ChatState × StreamLocals)
    (m : JStr) (hm : cleanStr m = true) :
    processChunk ctx s (renderChunk (.error m)) = s := by
  have hclean : cleanEvent (.error m) = true := hm
  rw [processChunk_render ctx s hclean]
  unfold processLine
  rw [if_pos (hasPre_append dataPre (renderEvent (Event.error m)))]
  simp only [drop6_dataPre, trim_renderEvent]
  rw [if_neg (renderEvent_ne_doneStr (Event.error m))]
  rw [parseEvent?_render _ hclean]

theorem processChunk_notJson (ctx : StreamCtx) (s : ChatState × StreamLocals) :
    processChunk ctx s (str "data: not-json\n") = s := by
  unfold processChunk
  rw [show splitNl (str "data: not-json\n") = [str "data: not-json", []] from by decide]
  rw [show List.foldl (processLine ctx) s [str "data: not-json", []]
      = processLine ctx (processLine ctx s (str "data: not-json")) [] from rfl]
  rw [processLine_nil]
  unfold processLine
  rw [if_pos (show hasPre dataPre (str "data: not-json") = true from by decide)]
  rw [show ((str "data: not-json").drop 6 : JStr) = str "not-json" from by decide]
  rw [show trimChars (str "not-json") = str "not-json" from by decide]
  rw [if_neg (show ¬(str "not-json" = doneStr) from by decide)]
  rw [show parseEvent? (str "not-json") = none from by decide]

theorem foldl_pres {α β γ : Type _} {f : α → γ → α} {P : α → β}
    (h : ∀ s x, P (f s x) = P s) : ∀ (l : List γ) (s : α), P (l.foldl f s) = P s := by
  intro l
  induction l with
  | nil => intro s; rfl
  | cons x t ih => intro s; rw [List.foldl_cons, ih, h]

theorem foldl_inv {α γ : Type _} {f : α → γ → α} {Q : α → Prop}
    (h : ∀ s x, Q s → Q (f s x)) : ∀ (l : List γ) (s : α), Q s → Q (l.foldl f s) := by
  intro l
  induction l with
  | nil => intro s hs; exact hs
  | cons x t ih => intro s hs; rw [List.foldl_cons]; exact ih _ (h s x hs)

theorem processLine_misc (ctx : StreamCtx) (s : ChatState × StreamLocals) (line : JStr) :
    ((processLine ctx s line).1.toasts, (processLine ctx s line).1.cacheInvalidations,
     (processLine ctx s line).1.isLoading, (processLine ctx s line).1.nextId)
    = (s.1.toasts, s.1.cacheInvalidations, s.1.isLoading, s.1.nextId) := by
  unfold processLine
  dsimp only
  repeat' split
  all_goals rfl

theorem processStream_misc (ctx : StreamCtx) (s : ChatState × StreamLocals)
    (chunks : List JStr) :
    ((processStream ctx s chunks).1.toasts, (processStream ctx s chunks).1.cacheInvalidations,
     (processStream ctx s chunks).1.isLoading, (processStream ctx s chunks).1.nextId)
    = (s.1.toasts, s.1.cacheInvalidations, s.1.isLoading, s.1.nextId) := by
  unfold processStream
  refine foldl_pres (P := fun s : ChatState × StreamLocals =>
    (s.1.toasts, s.1.cacheInvalidations, s.1.isLoading, s.1.nextId)) (fun s chunk => ?_) chunks s
  unfold processChunk
  exact foldl_pres (P := fun s : ChatState × StreamLocals =>
    (s.1.toasts, s.1.cacheInvalidations, s.1.isLoading, s.1.nextId))
    (fun s line => processLine_misc ctx s line) (splitNl chunk) s

theorem setAidContent_idem (aid : Nat) (c1 c2 : JStr) (msgs : List Message) :
    setAidContent aid c2 (setAidContent aid c1 msgs) = setAidContent aid c2 msgs := by
  unfold setAidContent
  rw [List.map_map]
  refine List.map_congr_left fun m _ => ?_
  by_cases hm : m.id = aid <;> simp [hm]

theorem map_ite_id {aid : Nat} {msgs : List Message} (f : Message → Message)
    (h : ∀ m ∈ msgs, m.id ≠ aid) :
    (msgs.map fun m => if m.id = aid then f m else m) = msgs := by
  rw [show msgs = msgs.map id by simp]
  rw [List.map_map]
  refine List.map_congr_left fun m hm => ?_
  simp [h m (by simpa using hm)]

theorem processLine_shape (ctx : StreamCtx) {base : List Message}
    {s : ChatState × StreamLocals} (line : JStr)
    (h : s.1.messages = setAidContent ctx.assistantId s.2.fullContent base) :
    (processLine ctx s line).1.messages
      = setAidContent ctx.assistantId (processLine ctx s line).2.fullContent base := by
  unfold processLine
  dsimp only
  repeat' split
  all_goals first
    | exact h
    | (show setAidContent ctx.assistantId (s.2.fullContent ++ _) s.1.messages
          = setAidContent ctx.assistantId (s.2.fullContent ++ _) base
       rw [h, setAidContent_idem])

theorem processStream_shape (ctx : StreamCtx) {base : List Message}
    (chunks : List JStr) (s : ChatState × StreamLocals)
    (h : s.1.messages = setAidContent ctx.assistantId s.2.fullContent base) :
    (processStream ctx s chunks).1.messages
      = setAidContent ctx.assistantId (processStream ctx s chunks).2.fullContent base := by
  unfold processStream
  refine foldl_inv (Q := fun s => s.1.messages
    = setAidContent ctx.assistantId s.2.fullContent base) (fun s chunk hs => ?_) chunks s h
  unfold processChunk
  exact foldl_inv (Q := fun s : ChatState × StreamLocals =>
      s.1.messages = setAidContent ctx.assistantId s.2.fullContent base)
    (fun s line hs => processLine_shape ctx line hs) (splitNl chunk) s hs

theorem submitStart_inv {st : ChatState} {content : JStr} {st1 : ChatState} {ctx : StreamCtx}
    (h : submitStart st content = some (st1, ctx)) :
    st1 = { st with
            messages := st.messages ++ [userMessage st content, assistantMessage st],
            isLoading := true, nextId := st.nextId + 2 }
    ∧ ctx = { closureConvId := st.conversationId, assistantId := st.nextId + 1 }
    ∧ (trimChars content).isEmpty = false ∧ st.isLoading = false := by
  unfold submitStart at h
  split at h
  · exact absurd h (by simp)
  · next hcond =>
    simp only [Bool.or_eq_true, not_or, Bool.not_eq_true] at hcond
    simp only [Option.some.injEq, Prod.mk.injEq] at h
    exact ⟨h.1.symm, h.2.symm, hcond.1, hcond.2⟩

theorem setAidContent_append {st : ChatState} {content : JStr} (c : JStr) (hwf : WFIds st) :
    setAidContent (st.nextId + 1) c (st.messages ++ [userMessage st content, assistantMessage st])
      = st.messages ++ [userMessage st content, { assistantMessage st with content := c }] := by
  unfold setAidContent
  rw [List.map_append]
  rw [map_ite_id _ (fun m hm => by have := hwf m hm; omega)]
  simp only [List.map_cons, List.map_nil]
  rw [if_neg (show ¬((userMessage st content).id = st.nextId + 1) from by
    simp only [userMessage]; omega)]
  rw [if_pos (show (assistantMessage st).id = st.nextId + 1 from rfl)]

theorem st1_shape_start {st : ChatState} {content : JStr} {st1 : ChatState} {ctx : StreamCtx}
    (hwf : WFIds st) (h : submitStart st content = some (st1, ctx)) :
    st1.messages = setAidContent ctx.assistantId initLocals.fullContent st1.messages := by
  obtain ⟨h1, h2, _, _⟩ := submitStart_inv h
  rw [h1, h2]
  show st.messages ++ [userMessage st content, assistantMessage st]
    = setAidContent (st.nextId + 1) [] (st.messages ++ [userMessage st content, assistantMessage st])
  rw [setAidContent_append [] hwf]
  rfl

theorem sendMessage_messages {st : ChatState} {content : JStr} (chunks : List JStr)
    {st1 : ChatState} {ctx : StreamCtx} (hwf : WFIds st)
    (h : submitStart st content = some (st1, ctx)) :
    (sendMessage st content chunks).messages
      = st.messages ++ [userMessage st content,
          { id := st.nextId + 1, role := .assistant,
            content := (processStream ctx (st1, initLocals) chunks).2.fullContent,
            sources := some (processStream ctx (st1, initLocals) chunks).2.sources,
            timestamp := 0, isStreaming := false }] := by
  obtain ⟨h1, h2, _, _⟩ := submitStart_inv h
  unfold sendMessage
  rw [h]
  unfold finalizeSuccess
  have hshape := processStream_shape ctx chunks (st1, initLocals) (st1_shape_start hwf h)
  dsimp only
  rw [hshape, h2]
  dsimp only
  rw [h1]
  dsimp only
  rw [setAidContent_append _ hwf]
  rw [List.map_append]
  rw [map_ite_id _ (fun m hm => by have := hwf m hm; omega)]
  simp only [List.map_cons, List.map_nil, userMessage, assistantMessage]
  simp

theorem sendMessageAborted_messages {st : ChatState} {content : JStr} (chunks : List JStr)
    {st1 : ChatState} {ctx : StreamCtx} (hwf : WFIds st)
    (h : submitStart st content = some (st1, ctx)) :
    (sendMessageAborted st content chunks).messages
      = st.messages ++ [userMessage st content,
          { id := st.nextId + 1, role := .assistant,
            content := (processStream ctx (st1, initLocals) chunks).2.fullContent,
            sources := none, timestamp := 0, isStreaming := false }] := by
  obtain ⟨h1, h2, _, _⟩ := submitStart_inv h
  unfold sendMessageAborted
  rw [h]
  unfold finalizeAbort
  have hshape := processStream_shape ctx chunks (st1, initLocals) (st1_shape_start hwf h)
  dsimp only
  rw [hshape, h2]
  dsimp only
  rw [h1]
  dsimp only
  rw [setAidContent_append _ hwf]
  rw [List.map_append]
  rw [map_ite_id _ (fun m hm => by have := hwf m hm; omega)]
  simp only [List.map_cons, List.map_nil, userMessage, assistantMessage]
  simp

theorem processChunk_sources_effect (ctx : StreamCtx) (s : ChatState × StreamLocals)
    {e : Event} (h : cleanEvent e = true) :
    (processChunk ctx s (renderChunk e)).2.sources = stagedStep s.2.sources e := by
  cases e with
  | token c => rw [processChunk_token ctx s c h]; rfl
  | sources ss => rw [processChunk_sources ctx s ss h]; rfl
  | conversation_id i =>
    rw [processChunk_conversation ctx s i h]
    split <;> rfl
  | error m => rw [processChunk_error ctx s m h]; rfl

theorem processStream_staged (ctx : StreamCtx) :
    ∀ (es : List Event) (s : ChatState × StreamLocals),
      (∀ e ∈ es, cleanEvent e = true) →
      (processStream ctx s (es.map renderChunk)).2.sources
        = es.foldl stagedStep s.2.sources := by
  intro es
  induction es with
  | nil => intro s h; rfl
  | cons e t ih =>
    intro s h
    rw [List.map_cons]
    unfold processStream
    rw [List.foldl_cons, List.foldl_cons]
    have he := h e (List.mem_cons_self e t)
    have ht := fun x hx => h x (List.mem_cons_of_mem e hx)
    have step := processChunk_sources_effect ctx s he
    have ihs := ih (processChunk ctx s (renderChunk e)) ht
    unfold processStream at ihs
    rw [ihs, step]

theorem sendMessage_noop_isLoading (st : ChatState) (content : JStr) (chunks : List JStr)
    (h : st.isLoading = true) : sendMessage st content chunks = st := by
  unfold sendMessage submitStart
  rw [h]
  simp

theorem sendMessage_noop_empty (st : ChatState) (content : JStr) (chunks : List JStr)
    (h : trimChars content = []) : sendMessage st content chunks = st := by
  unfold sendMessage submitStart
  rw [h]
  simp

theorem lastIndexOfAssistant_snd (msgs : List Message) :
    ∀ p : Int × Int,
      (msgs.foldl
        (fun (p : Int × Int) m => (if m.role = .assistant then p.2 else p.1, p.2 + 1)) p).2
      = p.2 + msgs.length := by
  induction msgs with
  | nil => intro p; simp
  | cons m t ih =>
    intro p
    rw [List.foldl_cons, ih]
    simp
    omega

theorem lastIndexOfAssistant_append_ua (ms : List Message) (u a : Message)
    (ha : a.role = Role.assistant) :
    lastIndexOfAssistant (ms ++ [u, a]) = (ms.length : Int) + 1 := by
  unfold lastIndexOfAssistant
  rw [List.foldl_append, List.foldl_cons, List.foldl_cons, List.foldl_nil]
  simp only [ha, if_pos]
  rw [lastIndexOfAssistant_snd ms (-1, 0)]
  omega

theorem truncate_append_ua (ms : List Message) (u a : Message)
    (ha : a.role = Role.assistant) :
    truncateAtLastAssistant (ms ++ [u, a]) = ms ++ [u] := by
  unfold truncateAtLastAssistant
  rw [lastIndexOfAssistant_append_ua ms u a ha]
  rw [if_neg (by omega : ¬((ms.length : Int) + 1 = -1))]
  rw [show ((ms.length : Int) + 1).toNat = ms.length + 1 by omega]
  rw [List.take_append 1]
  rfl

/-- C1: the claim says a decoded error record aborts processing, replaces
the content with the fixed failure text and applies no staged sources.
The code disagrees: the throw at line 144 is caught by the catch at line
146, so the error record is silently ignored, the following token is
still folded, the exchange finalizes normally with sources attached, no
toast fires and the failure text never appears.  This theorem evaluates
the model at the failing input (error record then token record). -/
theorem C1_error_event_swallowed_eval :
    (sendMessage st0 (str "q") chunksC1).messages.map
        (fun m => (m.role, m.content, m.isStreaming, m.sources))
      = [(Role.user, str "q", false, none), (Role.assistant, str "hi", false, some [])]
    ∧ (sendMessage st0 (str "q") chunksC1).toasts = []
    ∧ ∀ m ∈ (sendMessage st0 (str "q") chunksC1).messages, ¬(m.content = failureText) := by
  decide

/-- C2: the claim says regenerate removes the last assistant message and
re-submits without duplicating the user message, leaving the question in
the transcript exactly once.  The code truncates before the last
assistant message but then calls sendMessage, which always appends a new
user message: the question Q1 ends up in the transcript twice.  This
theorem evaluates the model on the transcript user Q1, assistant A1. -/
theorem C2_regenerate_duplicates_user_eval :
    ((regenerateLastResponse stC2 []).messages.filter
        (fun m => m.role == Role.user && m.content == str "Q1")).length = 2
    ∧ (regenerateLastResponse stC2 []).messages.map (fun m => (m.id, m.role))
      = [(0, Role.user), (2, Role.user), (3, Role.assistant)] := by
  decide

/-- C3 counterexample: with a previous exchange still streaming
(isLoading true, streaming placeholder in the transcript), submitting
non-empty text changes nothing: the guard at line 45 returns before any
cancellation, the previous assistant message keeps isStreaming true and
no new placeholder is created — contradicting the claim that the
previous stream is cancelled and the new exchange proceeds. -/
theorem C3_cancel_on_submit_counterexample :
    stC3.isLoading = true
    ∧ (∃ m ∈ stC3.messages, m.isStreaming = true)
    ∧ sendMessage stC3 (str "hi") [] = stC3
    ∧ (∃ m ∈ (sendMessage stC3 (str "hi") []).messages, m.isStreaming = true)
    ∧ (sendMessage stC3 (str "hi") []).messages.length = stC3.messages.length := by
  decide

/-- C3 amended: submit issued while a previous exchange is still
streaming is a no-op (per the guard at line 45 and section 4.2 of the
specification): the state is unchanged, no cancellation happens and no
new exchange starts. -/
theorem C3_submit_while_streaming_noop (st : ChatState) (content : JStr)
    (chunks : List JStr) (h : st.isLoading = true) :
    sendMessage st content chunks = st :=
  sendMessage_noop_isLoading st content chunks h

/-- C3 witness: the amended no-op at a concrete mid-stream state. -/
theorem C3_submit_while_streaming_noop_witness :
    sendMessage stC3 (str "go") [] = stC3 :=
  C3_submit_while_streaming_noop stC3 (str "go") [] (by decide)

/-- C4: the claim says the second conversation-identifier record is
ignored (first-writer-wins) and the creation notification fires only for
A.  The code disagrees: the guard at line 139 reads the closure-captured
conversationId, which stays unset during the whole stream, so both
records pass the guard: the final conversationId is B (last writer wins)
and the notification fires for A and for B.  This theorem evaluates the
model at the failing input. -/
theorem C4_conversation_id_last_writer_eval :
    st0.conversationId = none
    ∧ (sendMessage st0 (str "hi") chunksC4).conversationId = some (str "B")
    ∧ (sendMessage st0 (str "hi") chunksC4).notifications = [str "A", str "B"] := by
  decide

/-- C5: the claim says the final content equals the concatenation of all
token fragments regardless of chunk boundaries, including a record split
across two chunks.  The code splits each chunk on newlines independently
with no carry-over buffer (lines 115-118), so a record split across a
chunk boundary decomposes into two unparseable lines and is dropped:
fragments ab then cd (split) yield ab, not abcd.  This theorem evaluates
the model at the failing input. -/
theorem C5_split_record_dropped_eval :
    (sendMessage st0 (str "q") chunksC5).messages.map (fun m => (m.role, m.content))
      = [(Role.user, str "q"), (Role.assistant, str "ab")]
    ∧ ∀ m ∈ (sendMessage st0 (str "q") chunksC5).messages,
        m.role = Role.assistant → ¬(m.content = str "ab" ++ str "cd") := by
  decide

/-- C6: calling regenerate while an exchange is streaming removes the
most recent assistant message (the streaming placeholder) and everything
after it, but starts no new exchange, because the re-driven sendMessage
is a no-op while isLoading is true: the transcript ends with the last
user message unanswered and contains no streaming message. -/
theorem C6_regenerate_while_streaming (st : ChatState) (ms : List Message)
    (u a : Message) (chunks : List JStr) (hmsgs : st.messages = ms ++ [u, a])
    (hu : u.role = Role.user) (ha : a.role = Role.assistant)
    (hload : st.isLoading = true) (hms : ∀ m ∈ ms, m.isStreaming = false)
    (hustream : u.isStreaming = false) :
    regenerateLastResponse st chunks = { st with messages := ms ++ [u] }
    ∧ ∀ m ∈ (regenerateLastResponse st chunks).messages, m.isStreaming = false := by
  have hfind : st.messages.reverse.find? (fun m => m.role == Role.user) = some u := by
    rw [hmsgs]
    rw [show (ms ++ [u, a]).reverse = a :: u :: ms.reverse by simp]
    rw [List.find?_cons_of_neg _ (by rw [ha]; decide)]
    rw [List.find?_cons_of_pos _ (by rw [hu]; decide)]
  have htrunc : truncateAtLastAssistant st.messages = ms ++ [u] := by
    rw [hmsgs]
    exact truncate_append_ua ms u a ha
  have hmain : regenerateLastResponse st chunks = { st with messages := ms ++ [u] } := by
    unfold regenerateLastResponse
    rw [hfind, htrunc]
    exact sendMessage_noop_isLoading _ _ _ hload
  refine ⟨hmain, ?_⟩
  rw [hmain]
  intro m hm
  rcases List.mem_append.mp hm with hmm | hmm
  · exact hms m hmm
  · rw [List.mem_singleton.mp hmm]
    exact hustream

/-- C6 witness: regenerate on a concrete mid-stream state. -/
theorem C6_regenerate_while_streaming_witness :
    regenerateLastResponse stC3 []
      = { stC3 with
          messages := [] ++ [(⟨0, Role.user, str "Q", none, 0, false⟩ : Message)] }
    ∧ ∀ m ∈ (regenerateLastResponse stC3 []).messages, m.isStreaming = false :=
  C6_regenerate_while_streaming stC3 []
    (⟨0, Role.user, str "Q", none, 0, false⟩ : Message)
    (⟨1, Role.assistant, str "part", none, 0, true⟩ : Message)
    [] (by decide) (by decide) (by decide) (by decide) (by decide) (by decide)

/-- C7: stopping a stream after some chunks have been folded finalizes
the placeholder with exactly the partial content accumulated so far,
isStreaming false and no sources; the other messages are exactly the
original transcript plus the user message, the conversationId is the one
the folded prefix produced, no toast is raised and isLoading clears. -/
theorem C7_stop_finalizes_partial (st : ChatState) (content : JStr)
    (chunks : List JStr) (st1 : ChatState) (ctx : StreamCtx) (hwf : WFIds st)
    (h : submitStart st content = some (st1, ctx)) :
    (sendMessageAborted st content chunks).messages
      = st.messages ++ [userMessage st content,
          { id := st.nextId + 1, role := .assistant,
            content := (processStream ctx (st1, initLocals) chunks).2.fullContent,
            sources := none, timestamp := 0, isStreaming := false }]
    ∧ (sendMessageAborted st content chunks).conversationId
      = (processStream ctx (st1, initLocals) chunks).1.conversationId
    ∧ (sendMessageAborted st content chunks).toasts = st.toasts
    ∧ (sendMessageAborted st content chunks).isLoading = false := by
  obtain ⟨h1, _, _, _⟩ := submitStart_inv h
  have hmisc := processStream_misc ctx (st1, initLocals) chunks
  simp only [Prod.mk.injEq] at hmisc
  refine ⟨sendMessageAborted_messages chunks hwf h, ?_, ?_, ?_⟩
  · unfold sendMessageAborted
    rw [h]
    rfl
  · unfold sendMessageAborted
    rw [h]
    unfold finalizeAbort
    dsimp only
    rw [hmisc.1, h1]
  · unfold sendMessageAborted
    rw [h]
    rfl

/-- C7 witness: stop after one token chunk on a concrete state. -/
theorem C7_stop_finalizes_partial_witness :
    (sendMessageAborted st0 (str "hi") [renderChunk (.token (str "par"))]).messages
      = st0.messages ++ [userMessage st0 (str "hi"),
          { id := st0.nextId + 1, role := .assistant,
            content := (processStream ctxW (st1W, initLocals)
              [renderChunk (.token (str "par"))]).2.fullContent,
            sources := none, timestamp := 0, isStreaming := false }]
    ∧ (sendMessageAborted st0 (str "hi") [renderChunk (.token (str "par"))]).conversationId
      = (processStream ctxW (st1W, initLocals) [renderChunk (.token (str "par"))]).1.conversationId
    ∧ (sendMessageAborted st0 (str "hi") [renderChunk (.token (str "par"))]).toasts = st0.toasts
    ∧ (sendMessageAborted st0 (str "hi") [renderChunk (.token (str "par"))]).isLoading = false :=
  C7_stop_finalizes_partial st0 (str "hi") [renderChunk (.token (str "par"))] st1W ctxW
    (by decide) (by decide)

/-- C8: the sources field of the streaming assistant message is never
set at any intermediate point of the fold, whatever the chunks are; at
finalization it is committed in one step as the whole staged list; and
for a stream of well-formed records the staged list is exactly the
payload of the last sources record (or empty). -/
theorem C8_sources_never_partial (st : ChatState) (content : JStr)
    (chunks : List JStr) (st1 : ChatState) (ctx : StreamCtx) (hwf : WFIds st)
    (h : submitStart st content = some (st1, ctx)) :
    (∀ i, ∀ m ∈ (processStream ctx (st1, initLocals) (chunks.take i)).1.messages,
        m.id = ctx.assistantId → m.sources = none)
    ∧ (∀ m ∈ (sendMessage st content chunks).messages,
        m.id = ctx.assistantId →
          m.sources = some (processStream ctx (st1, initLocals) chunks).2.sources)
    ∧ (∀ es : List Event, chunks = es.map renderChunk →
        (∀ e ∈ es, cleanEvent e = true) →
        (processStream ctx (st1, initLocals) chunks).2.sources = stagedSources es) := by
  obtain ⟨h1, h2, _, _⟩ := submitStart_inv h
  refine ⟨?_, ?_, ?_⟩
  · intro i m hm hid
    have hshape := processStream_shape ctx (chunks.take i) (st1, initLocals)
      (st1_shape_start hwf h)
    rw [hshape, h1, h2] at hm
    rw [h2] at hid
    dsimp only at hm hid
    rw [setAidContent_append _ hwf] at hm
    rcases List.mem_append.mp hm with hmm | hmm
    · have := hwf m hmm
      omega
    · rcases List.mem_cons.mp hmm with hmm | hmm
      · exfalso
        rw [hmm] at hid
        simp only [userMessage] at hid
        omega
      · rw [List.mem_singleton.mp hmm]
        rfl
  · intro m hm hid
    have hmsg := sendMessage_messages chunks hwf h
    rw [hmsg] at hm
    rw [h2] at hid
    dsimp only at hid
    rcases List.mem_append.mp hm with hmm | hmm
    · have := hwf m hmm
      omega
    · rcases List.mem_cons.mp hmm with hmm | hmm
      · exfalso
        rw [hmm] at hid
        simp only [userMessage] at hid
        omega
      · rw [List.mem_singleton.mp hmm]
  · intro es hes hclean
    rw [hes]
    rw [processStream_staged ctx es (st1, initLocals) hclean]
    rfl

/-- C8 witness: a concrete stream token, sources, token; the mid-stream
state after the sources record still shows no sources on the
placeholder, and the staged list is the payload of the sources record. -/
theorem C8_sources_never_partial_witness :
    (∀ m ∈ (processStream ctxW (st1W, initLocals) ((esW.map renderChunk).take 2)).1.messages,
        m.id = ctxW.assistantId → m.sources = none)
    ∧ (∀ m ∈ (sendMessage st0 (str "hi") (esW.map renderChunk)).messages,
        m.id = ctxW.assistantId →
          m.sources = some (processStream ctxW (st1W, initLocals) (esW.map renderChunk)).2.sources)
    ∧ (processStream ctxW (st1W, initLocals) (esW.map renderChunk)).2.sources
      = stagedSources esW := by
  have h := C8_sources_never_partial st0 (str "hi") (esW.map renderChunk) st1W ctxW
    (by decide) (by decide)
  exact ⟨h.1 2, h.2.1, h.2.2 esW rfl (by decide)⟩

/-- C9: submit with whitespace-only text changes nothing; submit with
non-empty trimmed text while no stream is active appends exactly one
user message carrying the trimmed text and then exactly one assistant
placeholder with empty content and isStreaming true, in that order, and
the whole exchange adds exactly those two messages to the transcript. -/
theorem C9_submit_appends_exactly (st : ChatState) (content : JStr)
    (chunks : List JStr) (hwf : WFIds st) :
    (trimChars content = [] → sendMessage st content chunks = st)
    ∧ (¬(trimChars content = []) → st.isLoading = false →
        submitStart st content
          = some ({ st with
              messages := st.messages ++ [userMessage st content, assistantMessage st],
              isLoading := true, nextId := st.nextId + 2 },
            { closureConvId := st.conversationId, assistantId := st.nextId + 1 })
        ∧ (userMessage st content).role = Role.user
        ∧ (userMessage st content).content = trimChars content
        ∧ (userMessage st content).isStreaming = false
        ∧ (assistantMessage st).role = Role.assistant
        ∧ (assistantMessage st).content = []
        ∧ (assistantMessage st).isStreaming = true
        ∧ ∃ a, (sendMessage st content chunks).messages
            = st.messages ++ [userMessage st content, a]
            ∧ a.role = Role.assistant ∧ a.id = st.nextId + 1) := by
  constructor
  · intro h
    exact sendMessage_noop_empty st content chunks h
  · intro hne hload
    have hguard : ¬((trimChars content).isEmpty || st.isLoading) = true := by
      simp [hload, List.isEmpty_iff]
      exact hne
    have hsub : submitStart st content
        = some ({ st with
            messages := st.messages ++ [userMessage st content, assistantMessage st],
            isLoading := true, nextId := st.nextId + 2 },
          { closureConvId := st.conversationId, assistantId := st.nextId + 1 }) := by
      unfold submitStart
      rw [if_neg hguard]
    refine ⟨hsub, rfl, rfl, rfl, rfl, rfl, rfl, ?_⟩
    exact ⟨_, sendMessage_messages chunks hwf hsub, rfl, rfl⟩

/-- C9 witness: a whitespace-only submit is a no-op on a concrete state,
and a concrete non-empty submit appends exactly the two messages. -/
theorem C9_submit_appends_exactly_witness :
    sendMessage st0 (str "   ") [] = st0
    ∧ (submitStart st0 (str "hi")
        = some ({ st0 with
            messages := st0.messages ++ [userMessage st0 (str "hi"), assistantMessage st0],
            isLoading := true, nextId := st0.nextId + 2 },
          { closureConvId := st0.conversationId, assistantId := st0.nextId + 1 })
        ∧ (userMessage st0 (str "hi")).role = Role.user
        ∧ (userMessage st0 (str "hi")).content = trimChars (str "hi")
        ∧ (userMessage st0 (str "hi")).isStreaming = false
        ∧ (assistantMessage st0).role = Role.assistant
        ∧ (assistantMessage st0).content = []
        ∧ (assistantMessage st0).isStreaming = true
        ∧ ∃ a, (sendMessage st0 (str "hi") []).messages
            = st0.messages ++ [userMessage st0 (str "hi"), a]
            ∧ a.role = Role.assistant ∧ a.id = st0.nextId + 1) :=
  ⟨(C9_submit_appends_exactly st0 (str "   ") [] (by decide)).1 (by decide),
   (C9_submit_appends_exactly st0 (str "hi") [] (by decide)).2 (by decide) (by decide)⟩

/-- C10: a malformed record between two well-formed token records is
skipped silently: both tokens are applied, the stream finalizes normally
and the final content is the concatenation of the two fragments. -/
theorem C10_malformed_frame_skipped (st : ChatState) (content f1 f2 : JStr)
    (st1 : ChatState) (ctx : StreamCtx) (hwf : WFIds st)
    (h : submitStart st content = some (st1, ctx))
    (hf1 : cleanStr f1 = true) (hf2 : cleanStr f2 = true) :
    (sendMessage st content
        [renderChunk (.token f1), str "data: not-json\n", renderChunk (.token f2)]).messages
      = st.messages ++ [userMessage st content,
          { id := st.nextId + 1, role := .assistant, content := f1 ++ f2,
            sources := some [], timestamp := 0, isStreaming := false }] := by
  have hmsg := sendMessage_messages
    [renderChunk (.token f1), str "data: not-json\n", renderChunk (.token f2)] hwf h
  have h2s : (processStream ctx (st1, initLocals)
      [renderChunk (.token f1), str "data: not-json\n", renderChunk (.token f2)]).2
      = { fullContent := ([] ++ f1) ++ f2, sources := [], newConvId := none } := by
    unfold processStream
    rw [List.foldl_cons, processChunk_token ctx _ f1 hf1]
    rw [List.foldl_cons, processChunk_notJson]
    rw [List.foldl_cons, processChunk_token ctx _ f2 hf2]
    rw [List.foldl_nil]
    rfl
  rw [hmsg, h2s]
  simp

/-- C10 witness: concrete fragments He and llo with the malformed frame
between them give content Hello. -/
theorem C10_malformed_frame_skipped_witness :
    (sendMessage st0 (str "hi")
        [renderChunk (.token (str "He")), str "data: not-json\n",
         renderChunk (.token (str "llo"))]).messages
      = st0.messages ++ [userMessage st0 (str "hi"),
          { id := st0.nextId + 1, role := .assistant, content := str "He" ++ str "llo",
            sources := some [], timestamp := 0, isStreaming := false }] :=
  C10_malformed_frame_skipped st0 (str "hi") (str "He") (str "llo") st1W ctxW
    (by decide) (by decide) (by decide) (by decide)

end RagChat
